import Mathlib

/-!
Shallow embedding of the uni-fixer civic-issue portal.

The data model follows the SQL schema in the repository's migration file
(tables `departments`, `profiles`, `user_roles`, `issues`, `upvotes`, the
row-level-security policies, and the seeded default departments), and the
operations follow the React page components (`IssueCard.handleUpvote`,
`Index.handleSubmitIssue`, the feed query of `Index`, `Profile.handleDeleteIssue`,
`PrincipalDashboard.handleStatusChange`, the `Header` role query and the
`PrincipalDashboard` role check and departments query).

Identifiers are Nat (standing for the uuid columns), timestamps are Int
milliseconds (the JavaScript epoch-millisecond clock), and tables are lists
of rows.  Fallible operations return `Except Err`, with `Err` the error
taxonomy of the specification.
-/

namespace UniFixer

/-- The `app_role` SQL enum. -/
inductive Role where
  | student
  | teacher
  | hod
  | principal
deriving DecidableEq

/-- The `issue_status` SQL enum. -/
inductive IssueStatus where
  | pending
  | acknowledged
  | work_done
deriving DecidableEq

/-- Error kinds of the specification's error taxonomy. -/
inductive Err where
  | validationError
  | permissionDenied
  | constraintViolation
  | storageError
  | notFound
deriving DecidableEq

/-- A row of the `departments` table. -/
structure Department where
  id : Nat
  name : String
  code : String
deriving DecidableEq

/-- A row of the `profiles` table (`department_id` is nullable). -/
structure Profile where
  id : Nat
  college_id : String
  full_name : String
  email : String
  department_id : Option Nat
deriving DecidableEq

/-- A row of the `issues` table. -/
structure Issue where
  id : Nat
  reporter_id : Nat
  department_id : Nat
  room_no : String
  item_id : String
  title : String
  description : Option String
  photo_url : Option String
  status : IssueStatus
  is_priority : Bool
  reported_at : Int
  deadline : Int
  resolved_at : Option Int
deriving DecidableEq

/-- The `upvotes` table, projected to its `(issue_id, user_id)` columns
(the surrogate `id` column plays no role in any behavior). -/
abbrev UpvoteTable := List (Nat × Nat)

/-- The `user_roles` table, projected to `(user_id, role)`. -/
abbrev RoleTable := List (Nat × Role)

/-- Milliseconds per day, the `1000 * 60 * 60 * 24` of `IssueCard`. -/
def msPerDay : Int := 1000 * 60 * 60 * 24

/-- Exact integer ceiling of the quotient `a / b`: the value of JavaScript
`Math.ceil(a / b)` for integer operands and positive `b` (`Int./` is
Euclidean division, which rounds toward negative infinity for positive
divisors, so negating twice yields the ceiling). -/
def ceilDivInt (a b : Int) : Int := -((-a) / b)

/-- `IssueCard.daysRemaining`:
`Math.ceil((new Date(issue.deadline).getTime() - Date.now()) / (1000*60*60*24))`. -/
def daysRemaining (deadline now : Int) : Int :=
  ceilDivInt (deadline - now) msPerDay

/-- `PrincipalDashboard.handleStatusChange`'s single-row update payload:
`{ status: newStatus, ...(newStatus === 'work_done' && { resolved_at: now }) }`.
Both fields are written by the one update statement, hence in one step here. -/
def applyStatusChange (i : Issue) (newStatus : IssueStatus) (now : Int) : Issue :=
  { i with
      status := newStatus
      resolved_at := if newStatus = IssueStatus.work_done then some now else i.resolved_at }

/-- A concrete already-resolved issue, used to exercise transitions away from
`work_done`. -/
def sampleResolvedIssue : Issue :=
  { id := 1
    reporter_id := 2
    department_id := 3
    room_no := "B216"
    item_id := "FAN-01"
    title := "t"
    description := none
    photo_url := none
    status := IssueStatus.work_done
    is_priority := false
    reported_at := 0
    deadline := 2592000000
    resolved_at := some 5 }

/-- C10: the displayed days-remaining is the exact ceiling of
`(deadline - now) / 1 day`; it equals 30 when the deadline is 30 days out,
and it drops by exactly 1 when the clock advances by 24 hours. -/
theorem daysRemaining_spec (deadline now : Int) :
    daysRemaining deadline now = ⌈((deadline - now : ℤ) : ℚ) / ((msPerDay : ℤ) : ℚ)⌉ ∧
    daysRemaining (now + 30 * msPerDay) now = 30 ∧
    daysRemaining deadline (now + msPerDay) = daysRemaining deadline now - 1 := by
  refine ⟨?_, ?_, ?_⟩
  · have hfloor :
        ⌊((-(deadline - now) : ℤ) : ℚ) / ((86400000 : ℕ) : ℚ)⌋
          = (-(deadline - now)) / ((86400000 : ℕ) : ℤ) :=
      Rat.floor_intCast_div_natCast (-(deadline - now)) 86400000
    have hceil :
        ⌈((deadline - now : ℤ) : ℚ) / ((msPerDay : ℤ) : ℚ)⌉
          = -⌊-(((deadline - now : ℤ) : ℚ) / ((msPerDay : ℤ) : ℚ))⌋ := by
      rw [Int.floor_neg]; ring_nf
    rw [hceil]
    have hms : ((msPerDay : ℤ) : ℚ) = ((86400000 : ℕ) : ℚ) := by norm_num [msPerDay]
    have hneg : -(((deadline - now : ℤ) : ℚ) / ((msPerDay : ℤ) : ℚ))
        = ((-(deadline - now) : ℤ) : ℚ) / ((86400000 : ℕ) : ℚ) := by
      rw [hms]; push_cast; ring
    rw [hneg, hfloor]
    simp [daysRemaining, ceilDivInt, msPerDay]
  · show -((-(now + 30 * msPerDay - now)) / msPerDay) = 30
    have h : -(now + 30 * msPerDay - now) = (-30) * msPerDay := by ring
    rw [h, Int.mul_ediv_cancel _ (by norm_num [msPerDay])]
    norm_num
  · show -((-(deadline - (now + msPerDay))) / msPerDay) = -((-(deadline - now)) / msPerDay) - 1
    have h : -(deadline - (now + msPerDay)) = -(deadline - now) + 1 * msPerDay := by ring
    rw [h, Int.add_mul_ediv_right _ _ (by norm_num [msPerDay] : msPerDay ≠ 0)]
    ring

/-- C1 (amended): the dashboard status change always writes the requested
status; a transition to `work_done` writes `resolved_at = now` in the same
update; and after the update `resolved_at` is non-null exactly when the new
status is `work_done` or `resolved_at` was already non-null — transitions
away from `work_done` do not clear it. -/
theorem applyStatusChange_spec (i : Issue) (s : IssueStatus) (now : Int) :
    (applyStatusChange i s now).status = s ∧
    (applyStatusChange i IssueStatus.work_done now).resolved_at = some now ∧
    ((applyStatusChange i s now).resolved_at ≠ none ↔
      (s = IssueStatus.work_done ∨ i.resolved_at ≠ none)) := by
  refine ⟨rfl, by simp [applyStatusChange], ?_⟩
  cases s <;> simp [applyStatusChange]

/-- C1 (counterexample): changing an already-resolved issue back to `pending`
leaves `resolved_at` set, so "resolved_at is non-null iff status = work_done"
fails after that status transition. -/
theorem status_resolvedAt_invariant_cex :
    ¬ (((applyStatusChange sampleResolvedIssue IssueStatus.pending 10).resolved_at ≠ none) ↔
        (applyStatusChange sampleResolvedIssue IssueStatus.pending 10).status
          = IssueStatus.work_done) := by
  simp [applyStatusChange, sampleResolvedIssue]

/-- `upvote_count` of an issue: the feed's
`supabase.from('upvotes').select(..., count: 'exact').eq('issue_id', issue.id)`. -/
def upvoteCountOf (db : UpvoteTable) (iid : Nat) : Nat :=
  (db.filter (fun r => r.1 = iid)).length

/-- `has_upvoted` of an issue for a viewer: the feed's
`.eq('issue_id', issue.id).eq('user_id', user.id).single()` existence probe. -/
def hasUpvotedOf (db : UpvoteTable) (iid uid : Nat) : Bool :=
  (iid, uid) ∈ db

/-- `IssueCard.handleUpvote`'s delete branch:
`from('upvotes').delete().eq('issue_id', issue.id).eq('user_id', user.id)`. -/
def deleteUpvote (db : UpvoteTable) (iid uid : Nat) : UpvoteTable :=
  db.filter (fun r => r ≠ (iid, uid))

/-- `IssueCard.handleUpvote`'s insert branch,
`from('upvotes').insert({ issue_id, user_id })`, under the schema's
`UNIQUE(issue_id, user_id)` constraint: a duplicate insert is rejected with a
uniqueness violation and the table is left unchanged. -/
def insertUpvote (db : UpvoteTable) (iid uid : Nat) : Except Err UpvoteTable :=
  if (iid, uid) ∈ db then Except.error Err.constraintViolation
  else Except.ok (db ++ [(iid, uid)])

/-- `IssueCard.handleUpvote`: delete the row when `hasUpvoted`, else insert it;
any backend error is rethrown to the caller (`if (error) throw error`). -/
def handleUpvote (db : UpvoteTable) (iid uid : Nat) (hU : Bool) :
    Except Err UpvoteTable :=
  if hU then Except.ok (deleteUpvote db iid uid)
  else insertUpvote db iid uid

/-- With no duplicate rows, deleting the `(iid, uid)` row and re-appending it
permutes the table. -/
theorem deleteUpvote_append_perm (iid uid : Nat) :
    ∀ db : UpvoteTable, db.Nodup → (iid, uid) ∈ db →
      List.Perm (deleteUpvote db iid uid ++ [(iid, uid)]) db := by
  intro db
  induction db with
  | nil => intro _ hp; cases hp
  | cons a t ih =>
    intro h hp
    rcases List.nodup_cons.mp h with ⟨hat, hts⟩
    by_cases hEq : a = (iid, uid)
    · have h1 : deleteUpvote t iid uid = t :=
        List.filter_eq_self.mpr (by
          intro x hx
          simp only [decide_eq_true_eq]
          intro hxEq
          exact hat (hEq ▸ hxEq ▸ hx : a ∈ t))
      have hfil : deleteUpvote (a :: t) iid uid = deleteUpvote t iid uid := by
        simp [deleteUpvote, hEq]
      rw [hfil, h1, hEq]
      exact List.perm_append_singleton _ t
    · have hpt : (iid, uid) ∈ t := by
        rcases List.mem_cons.mp hp with h1 | h1
        · exact absurd h1.symm hEq
        · exact h1
      have hfil : deleteUpvote (a :: t) iid uid = a :: deleteUpvote t iid uid := by
        simp [deleteUpvote, hEq]
      rw [hfil, List.cons_append]
      exact (ih hts hpt).cons a

/-- C3: toggling the upvote twice with an accurate `hasUpvoted` flag (the flag
the feed computes: existence of the pair) succeeds both times and restores both
the viewer's `has_upvoted` state and the issue's `upvote_count`; the table must
satisfy the schema's uniqueness constraint (no duplicate rows). -/
theorem upvote_toggle_roundtrip (db : UpvoteTable) (iid uid : Nat) (h : db.Nodup) :
    ∃ db1 db2,
      handleUpvote db iid uid (hasUpvotedOf db iid uid) = Except.ok db1 ∧
      handleUpvote db1 iid uid (hasUpvotedOf db1 iid uid) = Except.ok db2 ∧
      hasUpvotedOf db2 iid uid = hasUpvotedOf db iid uid ∧
      upvoteCountOf db2 iid = upvoteCountOf db iid := by
  by_cases hp : (iid, uid) ∈ db
  · refine ⟨deleteUpvote db iid uid, deleteUpvote db iid uid ++ [(iid, uid)], ?_, ?_, ?_, ?_⟩
    · simp [handleUpvote, hasUpvotedOf, hp]
    · have hnotmem : (iid, uid) ∉ deleteUpvote db iid uid := by
        intro hmem
        have := List.mem_filter.mp hmem
        simp at this
      simp [handleUpvote, hasUpvotedOf, hnotmem, insertUpvote]
    · simp [hasUpvotedOf, hp]
    · exact (((deleteUpvote_append_perm iid uid db h hp).filter
        (fun r => r.1 = iid)).length_eq)
  · refine ⟨db ++ [(iid, uid)], db, ?_, ?_, rfl, rfl⟩
    · simp [handleUpvote, hasUpvotedOf, hp, insertUpvote]
    · have hmem : hasUpvotedOf (db ++ [(iid, uid)]) iid uid = true := by
        simp [hasUpvotedOf]
      rw [hmem]
      have hkeep : deleteUpvote (db ++ [(iid, uid)]) iid uid = db := by
        have : deleteUpvote (db ++ [(iid, uid)]) iid uid
            = deleteUpvote db iid uid ++ deleteUpvote [(iid, uid)] iid uid := by
          simp [deleteUpvote]
        rw [this]
        have h1 : deleteUpvote [(iid, uid)] iid uid = [] := by simp [deleteUpvote]
        have h2 : deleteUpvote db iid uid = db :=
          List.filter_eq_self.mpr (by
            intro a ha
            simp only [decide_eq_true_eq]
            intro hEq
            exact hp (hEq ▸ ha))
        rw [h1, h2, List.append_nil]
      simp [handleUpvote, hkeep]

/-- C3 witness: the round trip evaluated on the one-row table `[(1, 2)]`. -/
theorem upvote_toggle_roundtrip_witness :
    ∃ db1 db2,
      handleUpvote [(1, 2)] 1 2 (hasUpvotedOf [(1, 2)] 1 2) = Except.ok db1 ∧
      handleUpvote db1 1 2 (hasUpvotedOf db1 1 2) = Except.ok db2 ∧
      hasUpvotedOf db2 1 2 = hasUpvotedOf [(1, 2)] 1 2 ∧
      upvoteCountOf db2 1 = upvoteCountOf [(1, 2)] 1 :=
  upvote_toggle_roundtrip [(1, 2)] 1 2 (by decide)

/-- C5 (amended): under the unique constraint a duplicate insert fails with a
`ConstraintViolation` and the only successful insert appends one new row to a
table not containing the pair (so at most one row per pair is preserved); but
the calling `handleUpvote` propagates the duplicate-insert error to the caller
(`if (error) throw error`) instead of treating "already exists" as success. -/
theorem upvote_unique_spec (db : UpvoteTable) (iid uid : Nat) (h : db.Nodup) :
    ((iid, uid) ∈ db → insertUpvote db iid uid = Except.error Err.constraintViolation) ∧
    (∀ db', insertUpvote db iid uid = Except.ok db' →
      db' = db ++ [(iid, uid)] ∧ db'.Nodup) ∧
    ((iid, uid) ∈ db →
      handleUpvote db iid uid false = Except.error Err.constraintViolation) := by
  refine ⟨?_, ?_, ?_⟩
  · intro hp; simp [insertUpvote, hp]
  · intro db' hok
    by_cases hp : (iid, uid) ∈ db
    · simp [insertUpvote, hp] at hok
    · simp [insertUpvote, hp] at hok
      subst hok
      refine ⟨rfl, ?_⟩
      rw [List.nodup_append]
      exact ⟨h, List.nodup_singleton _, by
        intro a ha hb
        simp at hb
        exact hp (hb ▸ ha)⟩
  · intro hp; simp [handleUpvote, insertUpvote, hp]

/-- C5 witness: both the duplicate-insert failure and the successful unique
insert, evaluated on the one-row table `[(1, 2)]`. -/
theorem upvote_unique_spec_witness :
    insertUpvote [(1, 2)] 1 2 = Except.error Err.constraintViolation ∧
    ([(1, 2), (3, 4)] = [(1, 2)] ++ [(3, 4)] ∧ ([(1, 2), (3, 4)] : UpvoteTable).Nodup) :=
  ⟨(upvote_unique_spec [(1, 2)] 1 2 (by decide)).1 (by decide),
   (upvote_unique_spec [(1, 2)] 3 4 (by decide)).2.1 [(1, 2), (3, 4)] (by rfl)⟩

/-- C5 counterexample: when the pair already exists and the client's flag says
otherwise, the upvote operation surfaces the `ConstraintViolation` as an error
rather than reporting success. -/
theorem upvote_already_exists_cex :
    handleUpvote [(1, 2)] 1 2 false = Except.error Err.constraintViolation := by
  rfl

/-- The stable descending sort on an integer key: the behavior of JavaScript
`Array.prototype.sort((a, b) => key(b) - key(a))` — since ES2019 `sort` is
required to be stable, and a stable sort for a total preorder is unique, so
`List.mergeSort` with the matching comparator is its exact model. -/
def jsSortDescBy {α : Type} (key : α → Int) (l : List α) : List α :=
  l.mergeSort (fun a b => decide (key b ≤ key a))

theorem jsSortDescBy_perm {α : Type} (key : α → Int) (l : List α) :
    List.Perm (jsSortDescBy key l) l :=
  List.mergeSort_perm l _

theorem jsSortDescBy_trans {α : Type} (key : α → Int) :
    ∀ a b c : α, decide (key b ≤ key a) = true → decide (key c ≤ key b) = true →
      decide (key c ≤ key a) = true := by
  intro a b c hab hbc
  simp only [decide_eq_true_eq] at *
  exact le_trans hbc hab

theorem jsSortDescBy_total {α : Type} (key : α → Int) :
    ∀ a b : α, (decide (key b ≤ key a) || decide (key a ≤ key b)) = true := by
  intro a b
  simpa using le_total (key b) (key a)

/-- The sort's output is descending in the key. -/
theorem jsSortDescBy_sorted {α : Type} (key : α → Int) (l : List α) :
    (jsSortDescBy key l).Pairwise (fun a b => key b ≤ key a) := by
  have h := List.sorted_mergeSort (jsSortDescBy_trans key) (jsSortDescBy_total key) l
  exact h.imp (fun hab => by simpa using hab)

/-- Stability: the elements holding any fixed key value appear in the output in
exactly their input order (filtering by one key value commutes with the sort). -/
theorem jsSortDescBy_filter_key {α : Type} (key : α → Int) (l : List α) (c : Int) :
    (jsSortDescBy key l).filter (fun a => key a = c)
      = l.filter (fun a => key a = c) := by
  have hpw : (l.filter (fun a => key a = c)).Pairwise
      (fun a b => decide (key b ≤ key a) = true) := by
    apply List.pairwise_of_forall_mem_list
    intro a ha b hb
    have ha2 := (List.mem_filter.mp ha).2
    have hb2 := (List.mem_filter.mp hb).2
    simp only [decide_eq_true_eq] at ha2 hb2 ⊢
    rw [ha2, hb2]
  have h1 : List.Sublist (l.filter (fun a => key a = c)) (jsSortDescBy key l) :=
    List.sublist_mergeSort (jsSortDescBy_trans key) (jsSortDescBy_total key) hpw
      (List.filter_sublist l)
  have h2 : List.Sublist (l.filter (fun a => key a = c))
      ((jsSortDescBy key l).filter (fun a => key a = c)) := by
    have h3 := h1.filter (fun a => decide (key a = c))
    have h4 : (l.filter (fun a => key a = c)).filter (fun a => key a = c)
        = l.filter (fun a => key a = c) :=
      List.filter_eq_self.mpr (fun a ha => (List.mem_filter.mp ha).2)
    rwa [h4] at h3
  have hlen : ((jsSortDescBy key l).filter (fun a => key a = c)).length
      = (l.filter (fun a => key a = c)).length :=
    ((jsSortDescBy_perm key l).filter (fun a => decide (key a = c))).length_eq
  exact (h2.eq_of_length hlen.symm).symm

/-- One element of the rendered feed: an issue annotated with its upvote count
and the viewer's upvote status, as built in the `issues` query of `Index`. -/
structure FeedItem where
  issue : Issue
  upvoteCount : Nat
  hasUpvoted : Bool
deriving DecidableEq

/-- The two sort tabs of `Index` (`'upvotes' | 'recent'`). -/
inductive SortMode where
  | by_upvotes
  | by_recency
deriving DecidableEq

/-- The per-issue annotation step of the `issues` query: the two extra lookups
computing `upvoteCount` and `hasUpvoted` for one row. -/
def annotateIssue (upvotes : UpvoteTable) (viewer : Nat) (i : Issue) : FeedItem :=
  { issue := i
    upvoteCount := upvoteCountOf upvotes i.id
    hasUpvoted := hasUpvotedOf upvotes i.id viewer }

/-- The `issues` query of `Index`.  `arrival` is the row order in which the
backend returns the matching issues.  For `by_recency` the query carries
`order('reported_at', { ascending: false })`, executed by the managed backend
and modelled from the spec as a stable descending sort on `reported_at`; the
client then annotates and returns the rows unsorted.  For `by_upvotes` the
query has no order clause; the client annotates the rows and sorts them with
`sort((a, b) => b.upvoteCount - a.upvoteCount)`. -/
def fetchFeed (mode : SortMode) (arrival : List Issue) (upvotes : UpvoteTable)
    (viewer : Nat) : List FeedItem :=
  match mode with
  | SortMode.by_recency =>
      (jsSortDescBy (fun i => i.reported_at) arrival).map (annotateIssue upvotes viewer)
  | SortMode.by_upvotes =>
      jsSortDescBy (fun a => (a.upvoteCount : Int))
        (arrival.map (annotateIssue upvotes viewer))

/-- C7: in `by_upvotes` mode the feed is a permutation of the annotated rows,
descending in `upvote_count`, and for each count value the tied issues keep
their arrival order; in `by_recency` mode it is a permutation of the annotated
rows, descending in `reported_at`, again with ties in arrival order. -/
theorem feed_sort_spec (arrival : List Issue) (upvotes : UpvoteTable) (viewer : Nat) :
    ((fetchFeed SortMode.by_upvotes arrival upvotes viewer).Pairwise
        (fun a b => b.upvoteCount ≤ a.upvoteCount)) ∧
    List.Perm (fetchFeed SortMode.by_upvotes arrival upvotes viewer)
      (arrival.map (annotateIssue upvotes viewer)) ∧
    (∀ c : Nat, (fetchFeed SortMode.by_upvotes arrival upvotes viewer).filter
        (fun a => a.upvoteCount = c)
      = (arrival.map (annotateIssue upvotes viewer)).filter (fun a => a.upvoteCount = c)) ∧
    ((fetchFeed SortMode.by_recency arrival upvotes viewer).Pairwise
        (fun a b => b.issue.reported_at ≤ a.issue.reported_at)) ∧
    List.Perm (fetchFeed SortMode.by_recency arrival upvotes viewer)
      (arrival.map (annotateIssue upvotes viewer)) ∧
    (∀ t : Int, (fetchFeed SortMode.by_recency arrival upvotes viewer).filter
        (fun a => a.issue.reported_at = t)
      = (arrival.map (annotateIssue upvotes viewer)).filter
          (fun a => a.issue.reported_at = t)) := by
  refine ⟨?_, ?_, ?_, ?_, ?_, ?_⟩
  · have h := jsSortDescBy_sorted (fun a : FeedItem => (a.upvoteCount : Int))
      (arrival.map (annotateIssue upvotes viewer))
    exact h.imp (fun hab => by exact_mod_cast hab)
  · exact jsSortDescBy_perm _ _
  · intro c
    have h1 : ∀ m : List FeedItem,
        m.filter (fun a => a.upvoteCount = c)
          = m.filter (fun a => (a.upvoteCount : Int) = (c : Int)) := by
      intro m
      apply List.filter_congr
      intro a _
      simp
    rw [h1, h1]
    exact jsSortDescBy_filter_key (fun a : FeedItem => (a.upvoteCount : Int)) _ (c : Int)
  · show (((jsSortDescBy (fun i : Issue => i.reported_at) arrival).map
        (annotateIssue upvotes viewer)).Pairwise
          (fun a b => b.issue.reported_at ≤ a.issue.reported_at))
    rw [List.pairwise_map]
    exact (jsSortDescBy_sorted (fun i : Issue => i.reported_at) arrival).imp
      (fun hab => hab)
  · exact (jsSortDescBy_perm (fun i : Issue => i.reported_at) arrival).map _
  · intro t
    show ((jsSortDescBy (fun i : Issue => i.reported_at) arrival).map
        (annotateIssue upvotes viewer)).filter (fun a => a.issue.reported_at = t)
      = (arrival.map (annotateIssue upvotes viewer)).filter
          (fun a => a.issue.reported_at = t)
    rw [List.filter_map, List.filter_map]
    have h1 : ((fun a : FeedItem => decide (a.issue.reported_at = t))
        ∘ annotateIssue upvotes viewer) = fun i : Issue => decide (i.reported_at = t) :=
      rfl
    rw [h1]
    rw [jsSortDescBy_filter_key (fun i : Issue => i.reported_at) arrival t]

/-- The SQL `has_role(_user_id, _role)` helper: existence of a matching
`user_roles` row. -/
def has_role (roles : RoleTable) (uid : Nat) (r : Role) : Bool :=
  (uid, r) ∈ roles

/-- The `issues` UPDATE row-level-security predicate: the OR of the two
permissive policies — "HoDs can update issues in their department"
(`has_role(uid, 'hod') AND department_id IN (SELECT department_id FROM
profiles WHERE id = uid)`) and "Principals can update any issue"
(`has_role(uid, 'principal')`).  A NULL `profiles.department_id` matches no
issue, since `issues.department_id` is NOT NULL. -/
def canUpdateIssue (roles : RoleTable) (profiles : List Profile) (uid : Nat)
    (i : Issue) : Bool :=
  (has_role roles uid Role.hod &&
    decide (some i.department_id ∈
      (profiles.filter (fun p => p.id = uid)).map (fun p => p.department_id)))
  || has_role roles uid Role.principal

/-- The data-layer status update
`from('issues').update({ status, ... }).eq('id', issueId)` as enforced by the
row-level-security policies: the matched row is written only when the acting
user satisfies the UPDATE policies, and an unauthorized attempt fails with the
spec's `PermissionDenied` (the spec's abstraction of data-layer enforcement);
a query matching no row is a no-op. -/
def updateIssueStatus (db : List Issue) (roles : RoleTable)
    (profiles : List Profile) (actor iid : Nat) (s : IssueStatus) (now : Int) :
    Except Err (List Issue) :=
  match db.find? (fun i => i.id = iid) with
  | none => Except.ok db
  | some i =>
      if canUpdateIssue roles profiles actor i then
        Except.ok (db.map (fun j => if j.id = iid then applyStatusChange j s now else j))
      else Except.error Err.permissionDenied

/-- The Boolean policy predicate means exactly: HoD whose own profile has the
issue's department, or principal. -/
theorem canUpdateIssue_iff (roles : RoleTable) (profiles : List Profile)
    (uid : Nat) (i : Issue) :
    canUpdateIssue roles profiles uid i = true ↔
      (((uid, Role.hod) ∈ roles ∧
          ∃ p ∈ profiles, p.id = uid ∧ p.department_id = some i.department_id) ∨
        (uid, Role.principal) ∈ roles) := by
  simp only [canUpdateIssue, has_role, Bool.or_eq_true, Bool.and_eq_true,
    decide_eq_true_eq, List.mem_map, List.mem_filter]
  constructor
  · rintro (⟨h1, p, ⟨hp1, hp2⟩, hp3⟩ | h2)
    · exact Or.inl ⟨h1, p, hp1, by simpa using hp2, hp3⟩
    · exact Or.inr h2
  · rintro (⟨h1, p, hp1, hp2, hp3⟩ | h2)
    · exact Or.inl ⟨h1, p, ⟨hp1, by simpa using hp2⟩, hp3⟩
    · exact Or.inr h2

/-- C2: with an existing issue row, the data-layer status update succeeds
exactly for an HoD whose own department is the issue's department or for a
principal, and fails with `PermissionDenied` for every other actor. -/
theorem status_update_authorization (db : List Issue) (roles : RoleTable)
    (profiles : List Profile) (actor iid : Nat) (s : IssueStatus) (now : Int)
    (i : Issue) (hfind : db.find? (fun j => j.id = iid) = some i) :
    ((∃ db', updateIssueStatus db roles profiles actor iid s now = Except.ok db') ↔
      (((actor, Role.hod) ∈ roles ∧
          ∃ p ∈ profiles, p.id = actor ∧ p.department_id = some i.department_id) ∨
        (actor, Role.principal) ∈ roles)) ∧
    (updateIssueStatus db roles profiles actor iid s now
        = Except.error Err.permissionDenied ↔
      ¬ (((actor, Role.hod) ∈ roles ∧
          ∃ p ∈ profiles, p.id = actor ∧ p.department_id = some i.department_id) ∨
        (actor, Role.principal) ∈ roles)) := by
  rw [← canUpdateIssue_iff roles profiles actor i]
  unfold updateIssueStatus
  rw [hfind]
  by_cases hc : canUpdateIssue roles profiles actor i = true
  · simp [hc]
  · simp [hc]

/-- A department, an issue in it, and the profile of that department's HoD,
used to evaluate the authorization theorems. -/
def issueA : Issue :=
  { id := 1
    reporter_id := 2
    department_id := 10
    room_no := ""
    item_id := ""
    title := ""
    description := none
    photo_url := none
    status := IssueStatus.pending
    is_priority := false
    reported_at := 0
    deadline := 2592000000
    resolved_at := none }

/-- The profile of the HoD of department 10. -/
def hodProfile : Profile :=
  { id := 7
    college_id := ""
    full_name := ""
    email := ""
    department_id := some 10 }

/-- C2 witness: the department's own HoD succeeds; an HoD with no matching
profile department fails with `PermissionDenied`. -/
theorem status_update_authorization_witness :
    (∃ db', updateIssueStatus [issueA] [(7, Role.hod)] [hodProfile] 7 1
        IssueStatus.acknowledged 0 = Except.ok db') ∧
    updateIssueStatus [issueA] [(9, Role.hod)] [hodProfile] 9 1
        IssueStatus.acknowledged 0 = Except.error Err.permissionDenied :=
  ⟨(status_update_authorization [issueA] [(7, Role.hod)] [hodProfile] 7 1
      IssueStatus.acknowledged 0 issueA (by decide)).1.mpr
      (Or.inl ⟨by decide, by decide⟩),
   (status_update_authorization [issueA] [(9, Role.hod)] [hodProfile] 9 1
      IssueStatus.acknowledged 0 issueA (by decide)).2.mpr (by decide)⟩

/-- The `issues` DELETE as executed under the policy "Users can delete their
own issues" (`USING (reporter_id = auth.uid())`), for the client call
`from('issues').delete().eq('id', issueId).eq('reporter_id', user.id)`:
exactly the rows matching the filters and the policy are removed; protected
rows survive with no error raised. -/
def rlsDeleteIssue (db : List Issue) (actor iid : Nat) : List Issue :=
  db.filter (fun i => ¬ (i.id = iid ∧ i.reporter_id = actor))

/-- The reporter pre-check read of `Profile.handleDeleteIssue`:
`select('reporter_id').eq('id', issueId).single()` — `.single()` yields data
only when exactly one row matches. -/
def singleIssueById (db : List Issue) (iid : Nat) : Option Issue :=
  match db.filter (fun i => i.id = iid) with
  | [i] => some i
  | _ => none

/-- The guard `if (issueCheck && issueCheck.reporter_id !== user.id)` of
`Profile.handleDeleteIssue` (a null check object skips the guard). -/
def reporterMismatch (check : Option Issue) (actor : Nat) : Bool :=
  match check with
  | some i => decide (i.reporter_id ≠ actor)
  | none => false

/-- `Profile.handleDeleteIssue`: read the issue's reporter, reject a
non-reporter ("You are not the reporter of this issue"), run the
policy-guarded delete, then re-read the `count` of rows with that id and fail
if any row persists ("Delete did not apply due to permissions"); both
rejections surface as the spec's `PermissionDenied`. -/
def handleDeleteIssue (db : List Issue) (actor iid : Nat) :
    Except Err (List Issue) :=
  if reporterMismatch (singleIssueById db iid) actor then
    Except.error Err.permissionDenied
  else if ((rlsDeleteIssue db actor iid).filter (fun i => i.id = iid)).length > 0 then
    Except.error Err.permissionDenied
  else Except.ok (rlsDeleteIssue db actor iid)

/-- C4: with exactly one row carrying the issue id, deletion by a non-reporter
fails with `PermissionDenied`; deletion by the reporter succeeds and leaves no
row with that id; and any successful delete result has zero remaining rows
with that id (the operation re-checks its own post-condition). -/
theorem delete_issue_spec (db : List Issue) (i : Issue) (actor iid : Nat)
    (hmem : db.filter (fun j => j.id = iid) = [i]) :
    (actor ≠ i.reporter_id →
      handleDeleteIssue db actor iid = Except.error Err.permissionDenied) ∧
    (actor = i.reporter_id →
      handleDeleteIssue db actor iid = Except.ok (rlsDeleteIssue db actor iid) ∧
      (rlsDeleteIssue db actor iid).filter (fun j => j.id = iid) = []) ∧
    (∀ db', handleDeleteIssue db actor iid = Except.ok db' →
      db'.filter (fun j => j.id = iid) = []) := by
  have huniq : ∀ j ∈ db, j.id = iid → j = i := by
    intro j hj hjid
    have : j ∈ db.filter (fun k => k.id = iid) :=
      List.mem_filter.mpr ⟨hj, by simpa using hjid⟩
    rw [hmem] at this
    exact List.mem_singleton.mp this
  have hsingle : singleIssueById db iid = some i := by
    simp [singleIssueById, hmem]
  refine ⟨?_, ?_, ?_⟩
  · intro hne
    have hd : reporterMismatch (singleIssueById db iid) actor = true := by
      rw [hsingle]
      simp only [reporterMismatch, decide_eq_true_eq]
      exact fun h => hne h.symm
    unfold handleDeleteIssue
    rw [if_pos hd]
  · intro hEq
    have hclean : (rlsDeleteIssue db actor iid).filter (fun j => j.id = iid) = [] := by
      rw [List.filter_eq_nil_iff]
      intro a ha
      have h1 := List.mem_filter.mp ha
      have h2 : ¬ (a.id = iid ∧ a.reporter_id = actor) := by
        have := h1.2
        rwa [decide_eq_true_eq] at this
      simp only [decide_eq_true_eq]
      intro haid
      exact h2 ⟨haid, by rw [huniq a h1.1 haid, ← hEq]⟩
    refine ⟨?_, hclean⟩
    have hd : ¬ reporterMismatch (singleIssueById db iid) actor = true := by
      rw [hsingle]
      simp [reporterMismatch, hEq]
    unfold handleDeleteIssue
    rw [if_neg hd, if_neg (by simp [hclean])]
  · intro db' hok
    unfold handleDeleteIssue at hok
    by_cases h1 : reporterMismatch (singleIssueById db iid) actor = true
    · rw [if_pos h1] at hok
      cases hok
    · rw [if_neg h1] at hok
      by_cases h2 : ((rlsDeleteIssue db actor iid).filter (fun j => j.id = iid)).length > 0
      · rw [if_pos h2] at hok
        cases hok
      · rw [if_neg h2] at hok
        cases hok
        rw [← List.length_eq_zero]
        omega

/-- C4 witness: on a one-issue table with reporter 2, actor 3 is rejected and
actor 2 deletes the row. -/
theorem delete_issue_spec_witness :
    handleDeleteIssue [issueA] 3 1 = Except.error Err.permissionDenied ∧
    handleDeleteIssue [issueA] 2 1 = Except.ok (rlsDeleteIssue [issueA] 2 1) :=
  ⟨(delete_issue_spec [issueA] issueA 3 1 (by decide)).1 (by decide),
   ((delete_issue_spec [issueA] issueA 2 1 (by decide)).2.1 (by decide)).1⟩

/-- The row `Index.handleSubmitIssue` inserts, completed with the schema's
column defaults (`status 'pending'`, `is_priority false`, `reported_at now()`,
`deadline now() + interval '30 days'`, `resolved_at NULL`). -/
def mkSubmittedIssue (newId reporter dept : Nat) (room item ttl : String)
    (descr : Option String) (photoUrl : Option String) (now : Int) : Issue :=
  { id := newId
    reporter_id := reporter
    department_id := dept
    room_no := room
    item_id := item
    title := ttl
    description := descr
    photo_url := photoUrl
    status := IssueStatus.pending
    is_priority := false
    reported_at := now
    deadline := now + 30 * msPerDay
    resolved_at := none }

/-- `Index.handleSubmitIssue`: with a photo, first upload the bytes
(`storage.from('issue-photos').upload(fileName, photo)`); an upload error is
thrown before the insert runs (`if (uploadError) throw uploadError`),
surfaced as the spec's `StorageError`, so no issue row is created; on success
the public URL is attached as `photo_url` and one row is inserted.  The
`storage` argument models the external object-storage service's response for
this upload. -/
def handleSubmitIssue (db : List Issue) (reporter dept : Nat)
    (room item ttl : String) (descr : Option String) (photo : Option String)
    (storage : String → Except Unit String) (now : Int) (newId : Nat) :
    Except Err (List Issue) :=
  match photo with
  | some p =>
      match storage p with
      | Except.error _ => Except.error Err.storageError
      | Except.ok url =>
          Except.ok (db ++
            [mkSubmittedIssue newId reporter dept room item ttl descr (some url) now])
  | none =>
      Except.ok (db ++
        [mkSubmittedIssue newId reporter dept room item ttl descr none now])

/-- C6: a failed photo upload aborts the submission with `StorageError`
before any issue row is inserted; a successful upload inserts exactly one row
carrying the obtained public URL as `photo_url`. -/
theorem submit_issue_photo_spec (db : List Issue) (reporter dept : Nat)
    (room item ttl : String) (descr : Option String) (p : String)
    (storage : String → Except Unit String) (now : Int) (newId : Nat) :
    (∀ e, storage p = Except.error e →
      handleSubmitIssue db reporter dept room item ttl descr (some p) storage now newId
        = Except.error Err.storageError) ∧
    (∀ url, storage p = Except.ok url →
      handleSubmitIssue db reporter dept room item ttl descr (some p) storage now newId
        = Except.ok (db ++
            [mkSubmittedIssue newId reporter dept room item ttl descr (some url) now]) ∧
      (mkSubmittedIssue newId reporter dept room item ttl descr (some url) now).photo_url
        = some url) := by
  constructor
  · intro e he
    simp [handleSubmitIssue, he]
  · intro url hu
    exact ⟨by simp [handleSubmitIssue, hu], rfl⟩

/-- C6 witness: a storage service that rejects the upload aborts the
submission on the empty table; one that accepts it inserts the row with the
returned URL. -/
theorem submit_issue_photo_spec_witness :
    handleSubmitIssue [] 2 10 "B216" "FAN-01" "t" none (some "x.png")
        (fun _ => Except.error ()) 0 1 = Except.error Err.storageError ∧
    handleSubmitIssue [] 2 10 "B216" "FAN-01" "t" none (some "x.png")
        (fun _ => Except.ok "https://bucket/2/0.png") 0 1
      = Except.ok [mkSubmittedIssue 1 2 10 "B216" "FAN-01" "t" none
          (some "https://bucket/2/0.png") 0] :=
  ⟨(submit_issue_photo_spec [] 2 10 "B216" "FAN-01" "t" none "x.png"
      (fun _ => Except.error ()) 0 1).1 () rfl,
   ((submit_issue_photo_spec [] 2 10 "B216" "FAN-01" "t" none "x.png"
      (fun _ => Except.ok "https://bucket/2/0.png") 0 1).2
      "https://bucket/2/0.png" rfl).1⟩

/-- The `Header` role query:
`from('user_roles').select('role').eq('user_id', user.id).single()` with
`if (error) return null` — `.single()` errors unless exactly one row matches,
so both zero roles and several roles collapse to null. -/
def headerUserRole (roles : RoleTable) (uid : Nat) : Option Role :=
  match roles.filter (fun r => r.1 = uid) with
  | [r] => some r.2
  | _ => none

/-- The `PrincipalDashboard` access check:
`.eq('user_id', user.id).eq('role', 'principal').single()`; truthy data grants
access, a null result redirects away. -/
def principalDashboardCheck (roles : RoleTable) (uid : Nat) : Bool :=
  match roles.filter (fun r => r.1 = uid ∧ r.2 = Role.principal) with
  | [_] => true
  | _ => false

/-- In a duplicate-free list, filtering for one element returns exactly it. -/
theorem filter_eq_singleton_of_nodup {α : Type} [DecidableEq α] (a : α) :
    ∀ l : List α, l.Nodup → a ∈ l → l.filter (fun x => x = a) = [a] := by
  intro l
  induction l with
  | nil => intro _ hmem; cases hmem
  | cons x t ih =>
    intro h hmem
    rcases List.nodup_cons.mp h with ⟨hxt, hts⟩
    by_cases hEq : x = a
    · have hnil : t.filter (fun y => y = a) = [] := by
        rw [List.filter_eq_nil_iff]
        intro b hb
        simp only [decide_eq_true_eq]
        intro hba
        exact hxt ((hEq.trans hba.symm) ▸ hb)
      simp [hEq, hnil]
    · have hat : a ∈ t := by
        rcases List.mem_cons.mp hmem with h1 | h1
        · exact absurd h1.symm hEq
        · exact h1
      have : t.filter (fun y => y = a) = [a] := ih hts hat
      simp [hEq, this]

/-- C8 (amended): the header role query returns a role only when the user has
exactly one role row — zero rows and two-or-more rows (a multi-role user) both
collapse to "no role", hiding the dashboard links; the Principal dashboard's
own check, which filters on `role = 'principal'`, grants access exactly to
holders of the principal role (under the `UNIQUE(user_id, role)` constraint). -/
theorem role_resolution_spec (roles : RoleTable) (uid : Nat) (h : roles.Nodup) :
    (roles.filter (fun r => r.1 = uid) = [] → headerUserRole roles uid = none) ∧
    (2 ≤ (roles.filter (fun r => r.1 = uid)).length →
      headerUserRole roles uid = none) ∧
    (∀ r : Role, roles.filter (fun x => x.1 = uid) = [(uid, r)] →
      headerUserRole roles uid = some r) ∧
    (principalDashboardCheck roles uid = true ↔ (uid, Role.principal) ∈ roles) := by
  refine ⟨?_, ?_, ?_, ?_⟩
  · intro hnil
    unfold headerUserRole
    rw [hnil]
  · intro hlen
    unfold headerUserRole
    rcases hfe : roles.filter (fun r => r.1 = uid) with _ | ⟨x, _ | ⟨y, t⟩⟩
    · rw [hfe]
    · rw [hfe] at hlen
      simp at hlen
    · rw [hfe]
  · intro r hone
    unfold headerUserRole
    rw [hone]
  · have hpred : (fun r : Nat × Role => decide (r.1 = uid ∧ r.2 = Role.principal))
        = fun r : Nat × Role => decide (r = (uid, Role.principal)) := by
      funext r
      cases r with
      | mk a b => simp [Prod.ext_iff]
    constructor
    · intro hchk
      unfold principalDashboardCheck at hchk
      rcases hfe : roles.filter (fun r => r.1 = uid ∧ r.2 = Role.principal)
          with _ | ⟨x, xs⟩
      · rw [hfe] at hchk
        cases hchk
      · have hx : x ∈ roles.filter (fun r => r.1 = uid ∧ r.2 = Role.principal) := by
          rw [hfe]
          exact List.mem_cons_self x xs
        have hx2 := List.mem_filter.mp hx
        have hx3 : x.1 = uid ∧ x.2 = Role.principal := by
          have := hx2.2
          rwa [decide_eq_true_eq] at this
        have : x = (uid, Role.principal) := by
          cases x with
          | mk a b => simp_all
        exact this ▸ hx2.1
    · intro hmem
      unfold principalDashboardCheck
      rw [hpred, filter_eq_singleton_of_nodup (uid, Role.principal) roles h hmem]

/-- C8 (counterexample): a user holding both `hod` and `principal` is treated
as having no role by the header query — the multi-row result makes
`.single()` fail, `if (error) return null` hides it, and neither dashboard
link is shown — refuting "returns the set of roles" and "gating behaves
correctly for a user holding more than one role". -/
theorem header_role_multi_cex :
    headerUserRole [(0, Role.hod), (0, Role.principal)] 0 = none ∧
    ((0 : Nat), Role.hod) ∈ [((0 : Nat), Role.hod), ((0 : Nat), Role.principal)] ∧
    ((0 : Nat), Role.principal) ∈ [((0 : Nat), Role.hod), ((0 : Nat), Role.principal)] := by
  refine ⟨rfl, by decide, by decide⟩

/-- C8 witness: a single-role user resolves to that role, and the Principal
dashboard check is equivalent to holding the principal role. -/
theorem role_resolution_spec_witness :
    headerUserRole [((0 : Nat), Role.hod)] 0 = some Role.hod ∧
    (principalDashboardCheck [((0 : Nat), Role.principal)] 0 = true ↔
      ((0 : Nat), Role.principal) ∈ [((0 : Nat), Role.principal)]) :=
  ⟨(role_resolution_spec [(0, Role.hod)] 0 (by decide)).2.2.1 Role.hod (by decide),
   (role_resolution_spec [(0, Role.principal)] 0 (by decide)).2.2.2⟩

/-- The five departments seeded by the migration's
`INSERT INTO public.departments (name, code) VALUES ...`. -/
def defaultDepartments : List Department :=
  [ { id := 1, name := "Computer Science", code := "CS" }
  , { id := 2, name := "Electronics", code := "EC" }
  , { id := 3, name := "Mechanical", code := "ME" }
  , { id := 4, name := "Civil", code := "CE" }
  , { id := 5, name := "Electrical", code := "EE" } ]

/-- The `PrincipalDashboard` departments query (source comment: "Fetch all
departments"):
`from('departments').select('*').in('code', ['CS', 'EE', 'ME', 'HU']).order('name')`;
the backend's ascending name ordering is modelled as a stable sort. -/
def principalDepartmentsQuery (depts : List Department) : List Department :=
  (depts.filter (fun d => d.code ∈ (["CS", "EE", "ME", "HU"] : List String))).mergeSort
    (fun a b => decide (a.name ≤ b.name))

/-- C9: on the seeded departments table the Principal dashboard's departments
query drops Electronics (code `EC`) — and likewise Civil (`CE`) — because it
hard-codes the code list `['CS', 'EE', 'ME', 'HU']`; every row it does return
has a code from that fixed list, so the dashboard does not cover all
departments. -/
theorem principal_departments_missing :
    (Department.mk 2 "Electronics" "EC") ∈ defaultDepartments ∧
    (Department.mk 2 "Electronics" "EC") ∉ principalDepartmentsQuery defaultDepartments ∧
    (Department.mk 4 "Civil" "CE") ∉ principalDepartmentsQuery defaultDepartments ∧
    ∀ d ∈ principalDepartmentsQuery defaultDepartments,
      d.code ∈ (["CS", "EE", "ME", "HU"] : List String) := by
  refine ⟨by decide, ?_, ?_, ?_⟩
  · intro hmem
    rw [principalDepartmentsQuery, List.mem_mergeSort] at hmem
    have h2 := (List.mem_filter.mp hmem).2
    rw [decide_eq_true_eq] at h2
    revert h2
    decide
  · intro hmem
    rw [principalDepartmentsQuery, List.mem_mergeSort] at hmem
    have h2 := (List.mem_filter.mp hmem).2
    rw [decide_eq_true_eq] at h2
    revert h2
    decide
  · intro d hmem
    rw [principalDepartmentsQuery, List.mem_mergeSort] at hmem
    have h2 := (List.mem_filter.mp hmem).2
    rwa [decide_eq_true_eq] at h2

end UniFixer
